import Mathlib

/-!
Verification of the permission-manager core of `kodegen-native-permissions`.

The embedding follows `src/manager.rs` (PermissionManager), `src/types.rs`
(the enumerations) and `src/platforms/macos/notification_permissions.rs`
(the cancellation-aware notification request adapter). The platform
dispatcher is modelled as a record of kind-indexed adapter functions: the
manager's `match typ` merely selects which native adapter function runs,
so from the manager's point of view the dispatcher is a function from
permission kind to a result, plus the macOS-specific classification of
kinds into channel-mediated requests and synchronous short-circuits.
Native calls performed by an operation are recorded in an explicit trace
so that "without invoking the platform adapter" is a statement about the
trace being empty.
-/

/-- Permission kinds, from `src/types.rs` (`PermissionType`, 39 variants). -/
inductive PermissionType where
  | Camera
  | Microphone
  | Location
  | Calendar
  | Reminders
  | Contacts
  | Bluetooth
  | FullDiskAccess
  | ScreenCapture
  | Accessibility
  | AccessibilityMouse
  | InputMonitoring
  | Photos
  | SpeechRecognition
  | DesktopFolder
  | DocumentsFolder
  | DownloadsFolder
  | AppleEvents
  | DeveloperTools
  | AdminFiles
  | AddressBook
  | All
  | Calls
  | FaceID
  | FileProviderDomain
  | FileProviderPresence
  | FocusStatus
  | MediaLibrary
  | Motion
  | NearbyInteraction
  | PhotosAdd
  | PostEvent
  | RemoteDesktop
  | Siri
  | NetworkVolumes
  | RemovableVolumes
  | UbiquitousFileProvider
  | WillfulWrite
  | WiFi
  | Notification
  deriving DecidableEq

/-- Normalized permission status, from `src/types.rs` (`PermissionStatus`). -/
inductive PermissionStatus where
  | NotDetermined
  | Authorized
  | Denied
  | Restricted
  | PromptRequired
  | Unknown
  deriving DecidableEq

/-- Permission errors, from `src/types.rs` (`PermissionError`). -/
inductive PermissionError where
  | Denied
  | Restricted
  | SystemError (detail : String)
  | PlatformError (detail : String)
  | Unknown
  | Cancelled
  deriving DecidableEq

deriving instance DecidableEq for Except

/-- `Result<PermissionStatus, PermissionError>` of the Rust source. -/
abbrev PermResult := Except PermissionError PermissionStatus

/-- The status cache: a finite map from kind to status, modelling
`HashMap<PermissionType, PermissionStatus>` by an association list with
unique keys. -/
abbrev Cache := List (PermissionType × PermissionStatus)

/-- Lookup in an association list keyed by permission kind
(`HashMap::get`). -/
def mapLookup {α : Type} : List (PermissionType × α) → PermissionType → Option α
  | [], _ => none
  | (k, v) :: rest, typ => if k = typ then some v else mapLookup rest typ

/-- Insert-or-overwrite in an association list keyed by permission kind
(`HashMap::insert`): any existing entry for the key is removed and the
new binding added. -/
def mapInsert {α : Type} (m : List (PermissionType × α)) (k : PermissionType)
    (v : α) : List (PermissionType × α) :=
  (k, v) :: m.eraseP (fun p => p.1 == k)

/-- A native platform call performed by a manager operation, recorded so
that adapter-invocation counting claims are statements about the trace. -/
inductive NativeCall where
  | checkCall (typ : PermissionType)
  | requestCall (typ : PermissionType)
  | wifiCheckCall
  | tccRequestCall (typ : PermissionType)
  deriving DecidableEq

/-- Outcome of the one-shot channel handed to a channel-mediated request
adapter: the adapter either eventually sends one value, or the producer
is dropped without a value having been sent (`rx.await` yields
`RecvError`). -/
inductive ChannelOutcome where
  | sent (r : PermResult)
  | dropped
  deriving DecidableEq

/-- The platform dispatcher as seen by the manager: one check adapter
result per kind, one channel outcome per channel-mediated request kind,
the synchronous WiFi status check (`MacOSHandler::check_wifi`), and the
synchronous TCC request (`tcc_permissions::request_permission`). -/
structure Platform where
  checkAdapter : PermissionType → PermResult
  requestChannel : PermissionType → ChannelOutcome
  wifiCheck : PermResult
  tccRequest : PermissionType → PermResult

/-- How `PermissionManager::request_permission` dispatches a kind on
macOS (`src/manager.rs`, the `match typ` of `request_permission`):
channel-mediated adapters, the WiFi synchronous short-circuit, or the
TCC synchronous short-circuit of the fall-through arm. -/
inductive RequestPath where
  | channel
  | wifiSync
  | tccSync
  deriving DecidableEq

/-- The dispatch classification of `request_permission`'s `match typ`:
Camera/Microphone, Location, Calendar/Reminders, Contacts, Bluetooth,
Accessibility/AccessibilityMouse, ScreenCapture, InputMonitoring and
Notification gain a registered callback sending into the channel; WiFi
returns `check_wifi()` directly; every other kind falls through to the
synchronous TCC request. -/
def requestPathOf : PermissionType → RequestPath
  | .Camera => .channel
  | .Microphone => .channel
  | .Location => .channel
  | .Calendar => .channel
  | .Reminders => .channel
  | .Contacts => .channel
  | .Bluetooth => .channel
  | .Accessibility => .channel
  | .AccessibilityMouse => .channel
  | .ScreenCapture => .channel
  | .InputMonitoring => .channel
  | .Notification => .channel
  | .WiFi => .wifiSync
  | _ => .tccSync

/-- Result of one manager operation: the returned `Result`, the cache
after the operation, and the native calls performed. -/
structure OpResult where
  result : PermResult
  cache : Cache
  calls : List NativeCall
  deriving DecidableEq

/-- `PermissionManager::check_permission` (`src/manager.rs`): return the
cached status if present; otherwise invoke the platform check adapter,
writing the result into the cache on success and leaving the cache
untouched on failure. -/
def check_permission (p : Platform) (cache : Cache) (typ : PermissionType) :
    OpResult :=
  match mapLookup cache typ with
  | some status => ⟨.ok status, cache, []⟩
  | none =>
      match p.checkAdapter typ with
      | .ok s => ⟨.ok s, mapInsert cache typ s, [.checkCall typ]⟩
      | .error e => ⟨.error e, cache, [.checkCall typ]⟩

/-- `PermissionManager::request_permission` (`src/manager.rs`): never
consults the cache; WiFi returns `check_wifi()` directly and the TCC
fall-through returns the synchronous TCC request, both without touching
the cache; channel-mediated kinds await the one-shot channel, mapping a
dropped producer to `SystemError("Permission channel closed")`,
propagating an inner error without caching, and writing a successful
status through to the cache. -/
def request_permission (p : Platform) (cache : Cache) (typ : PermissionType) :
    OpResult :=
  match requestPathOf typ with
  | .wifiSync => ⟨p.wifiCheck, cache, [.wifiCheckCall]⟩
  | .tccSync => ⟨p.tccRequest typ, cache, [.tccRequestCall typ]⟩
  | .channel =>
      match p.requestChannel typ with
      | .dropped =>
          ⟨.error (.SystemError "Permission channel closed"), cache,
            [.requestCall typ]⟩
      | .sent (.error e) => ⟨.error e, cache, [.requestCall typ]⟩
      | .sent (.ok s) => ⟨.ok s, mapInsert cache typ s, [.requestCall typ]⟩

/-- `PermissionManager::refresh_cache` (`src/manager.rs`): runs
`check_permission` and discards its returned result, keeping the cache
it produces and the native calls it performed. -/
def refresh_cache (p : Platform) (cache : Cache) (typ : PermissionType) :
    Cache × List NativeCall :=
  let r := check_permission p cache typ
  (r.cache, r.calls)

/-- `PermissionManager::clear_cache` (`src/manager.rs`): one write-lock
acquisition, one `HashMap::clear`. -/
def clear_cache (_cache : Cache) : Cache := []

/-- The `Result` returned by one spawned `request_permission` task. The
returned result of `request_permission` does not depend on the cache
contents (the cache is only written, never read, on the request path),
so the task's entry value is determined by its platform interactions
alone; the empty cache is used as the representative cache state. -/
def requestResultOf (p : Platform) (typ : PermissionType) : PermResult :=
  (request_permission p [] typ).result

/-- The mapping returned by `request_permissions`
(`HashMap<PermissionType, Result<PermissionStatus, PermissionError>>`). -/
abbrev ResultMap := List (PermissionType × PermResult)

/-- The join loop of `PermissionManager::request_permissions`
(`src/manager.rs`): tasks are spawned in input order (the i-th input
kind becomes the i-th task); the loop then awaits each task in spawn
order, inserting `(typ, result)` into the mapping when the join
succeeds and skipping the task when the join fails. `envs i` is the
platform interaction of the i-th spawned task and `joined i` whether
its `task.await` returned `Ok`. -/
def request_permissions_aux (envs : Nat → Platform) (joined : Nat → Bool)
    (i : Nat) (types : List PermissionType) (acc : ResultMap) : ResultMap :=
  match types with
  | [] => acc
  | t :: ts =>
      request_permissions_aux envs joined (i + 1) ts
        (if joined i then mapInsert acc t (requestResultOf (envs i) t) else acc)

/-- `PermissionManager::request_permissions` (`src/manager.rs`). -/
def request_permissions (envs : Nat → Platform) (joined : Nat → Bool)
    (types : List PermissionType) : ResultMap :=
  request_permissions_aux envs joined 0 types []

/-- The `(kind, result)` pairs of the tasks that joined successfully,
in spawn order, starting from task index `i`. -/
def joinedEntries (envs : Nat → Platform) (joined : Nat → Bool) :
    Nat → List PermissionType → List (PermissionType × PermResult)
  | _, [] => []
  | i, t :: ts =>
      (if joined i then [(t, requestResultOf (envs i) t)] else [])
        ++ joinedEntries envs joined (i + 1) ts

/-- The result of the last successfully joined task for a given kind
(later joins overwrite earlier ones in the mapping), among the tasks
with index `i` onwards. -/
def lastJoined (envs : Nat → Platform) (joined : Nat → Bool) :
    Nat → List PermissionType → PermissionType → Option PermResult
  | _, [], _ => none
  | i, t :: ts, typ =>
      match lastJoined envs joined (i + 1) ts typ with
      | some r => some r
      | none =>
          if t = typ ∧ joined i = true then some (requestResultOf (envs i) t)
          else none

/-- A `PermissionManager` handle: it holds a reference (`Arc`) to a
cache cell; cloning copies the reference, not the cache
(`impl Clone for PermissionManager`, `src/manager.rs`). -/
structure PermissionManager where
  cacheId : Nat
  deriving DecidableEq

/-- `Clone::clone` (`src/manager.rs`): `Arc::clone(&self.cache)` — the
clone refers to the same cache cell. -/
def PermissionManager.clone (m : PermissionManager) : PermissionManager :=
  { cacheId := m.cacheId }

/-- The store of cache cells that manager handles refer to. -/
structure ManagerWorld where
  caches : Nat → Cache

/-- Replace the cache held in cell `i`. -/
def ManagerWorld.update (w : ManagerWorld) (i : Nat) (c : Cache) :
    ManagerWorld :=
  ⟨fun j => if j = i then c else w.caches j⟩

/-- `check_permission` invoked through a handle: reads and writes the
cache cell the handle refers to. -/
def worldCheck (p : Platform) (w : ManagerWorld) (m : PermissionManager)
    (typ : PermissionType) : PermResult × ManagerWorld × List NativeCall :=
  let r := check_permission p (w.caches m.cacheId) typ
  (r.result, w.update m.cacheId r.cache, r.calls)

/-- `request_permission` invoked through a handle. -/
def worldRequest (p : Platform) (w : ManagerWorld) (m : PermissionManager)
    (typ : PermissionType) : PermResult × ManagerWorld × List NativeCall :=
  let r := request_permission p (w.caches m.cacheId) typ
  (r.result, w.update m.cacheId r.cache, r.calls)

/-- The one-shot result channel (`tokio::sync::oneshot`): at most one
delivered value; a send after the receiver was dropped fails without
any other effect. -/
structure OneShotChan where
  delivered : Option PermResult
  receiverAlive : Bool
  deriving DecidableEq

/-- `Sender::send`: delivers the value when the receiver is still alive
and nothing was delivered yet; otherwise it returns failure and leaves
the channel unchanged. The adapter always discards the returned flag
(`let _ = sender.send(result)` / `.ok()`), so a failed send is silently
swallowed. -/
def chanSend (c : OneShotChan) (v : PermResult) : OneShotChan × Bool :=
  if c.receiverAlive && c.delivered.isNone then
    ({ c with delivered := some v }, true)
  else (c, false)

/-- State of one invocation of the macOS notification request adapter
(`src/platforms/macos/notification_permissions.rs`,
`request_permission_with_cancel`): the channel, whether the
`Arc<Mutex<Option<(Sender, CancellationToken)>>>` slot still holds the
sender, the `AtomicBool` guard flag, and the values the adapter has
attempted to send. -/
structure NotifRequestState where
  chan : OneShotChan
  senderHeld : Bool
  cancelFlag : Bool
  sendAttempts : List PermResult
  deriving DecidableEq

/-- The synchronous body of `request_permission_with_cancel` before any
native callback runs: when the cancellation token is already cancelled,
`Err(Cancelled)` is sent immediately (consuming the sender) and the
function returns without registering a callback; otherwise the sender is
parked in the slot for the completion handler and the guard flag starts
clear. -/
def notifRequestInit (alreadyCancelled : Bool) (chan : OneShotChan) :
    NotifRequestState :=
  if alreadyCancelled then
    { chan := (chanSend chan (.error .Cancelled)).1, senderHeld := false,
      cancelFlag := false, sendAttempts := [.error .Cancelled] }
  else
    { chan := chan, senderHeld := true, cancelFlag := false,
      sendAttempts := [] }

/-- One invocation of the native completion handler (`request_block`):
early-exit when the guard flag is set; otherwise compute the result
(`SystemError` of the error description when an `NSError` is present,
else `Authorized`/`Denied` from `granted`); take the sender from the
slot; if the token is observed cancelled at that point, set the guard
flag and drop the sender without sending; otherwise send, ignoring a
failed send. `cancelNow` is the token's cancellation state when the
handler runs. -/
def notifCallback (st : NotifRequestState) (cancelNow : Bool)
    (granted : Bool) (errDesc : Option String) : NotifRequestState :=
  if st.cancelFlag then st
  else
    let result : PermResult :=
      match errDesc with
      | some d => .error (.SystemError d)
      | none => if granted then .ok .Authorized else .ok .Denied
    if st.senderHeld then
      if cancelNow then
        { st with senderHeld := false, cancelFlag := true }
      else
        { chan := (chanSend st.chan result).1, senderHeld := false,
          cancelFlag := st.cancelFlag,
          sendAttempts := st.sendAttempts ++ [result] }
    else st

/-- The first option when present, else the fallback. -/
def firstSome {α : Type} (o fallback : Option α) : Option α :=
  match o with
  | some r => some r
  | none => fallback

theorem firstSome_eq_none_iff {α : Type} (o fallback : Option α) :
    firstSome o fallback = none ↔ o = none ∧ fallback = none := by
  cases o <;> simp [firstSome]

theorem mapLookup_eq_none_iff {α : Type} (m : List (PermissionType × α))
    (k : PermissionType) : mapLookup m k = none ↔ k ∉ m.map Prod.fst := by
  induction m with
  | nil => simp [mapLookup]
  | cons hd tl ih =>
      obtain ⟨a, b⟩ := hd
      by_cases h : a = k
      · subst h
        simp [mapLookup]
      · simp only [mapLookup, if_neg h, List.map_cons, List.mem_cons, ih]
        constructor
        · rintro hni (h1 | h2)
          · exact h h1.symm
          · exact hni h2
        · intro hni hm
          exact hni (Or.inr hm)

theorem mem_of_mapLookup_eq_some {α : Type} {m : List (PermissionType × α)}
    {k : PermissionType} {v : α} (h : mapLookup m k = some v) : (k, v) ∈ m := by
  induction m with
  | nil => simp [mapLookup] at h
  | cons hd tl ih =>
      obtain ⟨a, b⟩ := hd
      by_cases hak : a = k
      · subst hak
        have hb : b = v := by simpa [mapLookup] using h
        subst hb
        exact List.mem_cons_self _ _
      · simp only [mapLookup, if_neg hak] at h
        exact List.mem_cons_of_mem _ (ih h)

theorem eraseP_cons_key_hit {α : Type} (tl : List (PermissionType × α))
    (a k : PermissionType) (b : α) (hak : a = k) :
    List.eraseP (fun p => p.1 == k) ((a, b) :: tl) = tl := by
  simp [List.eraseP_cons, hak]

theorem eraseP_cons_key_miss {α : Type} (tl : List (PermissionType × α))
    (a k : PermissionType) (b : α) (hak : ¬a = k) :
    List.eraseP (fun p => p.1 == k) ((a, b) :: tl)
      = (a, b) :: List.eraseP (fun p => p.1 == k) tl := by
  simp [List.eraseP_cons, hak]

theorem mapLookup_eraseP {α : Type} (m : List (PermissionType × α))
    (k typ : PermissionType) (h : k ≠ typ) :
    mapLookup (m.eraseP (fun p => p.1 == k)) typ = mapLookup m typ := by
  induction m with
  | nil => rfl
  | cons hd tl ih =>
      obtain ⟨a, b⟩ := hd
      by_cases hak : a = k
      · rw [eraseP_cons_key_hit tl a k b hak]
        have hat : a ≠ typ := by rw [hak]; exact h
        simp [mapLookup, hat]
      · rw [eraseP_cons_key_miss tl a k b hak]
        by_cases hat : a = typ
        · simp [mapLookup, hat]
        · simp [mapLookup, hat, ih]

theorem mapLookup_mapInsert_self {α : Type} (m : List (PermissionType × α))
    (k : PermissionType) (v : α) : mapLookup (mapInsert m k v) k = some v := by
  simp [mapInsert, mapLookup]

theorem mapLookup_mapInsert_ne {α : Type} (m : List (PermissionType × α))
    (k typ : PermissionType) (v : α) (h : k ≠ typ) :
    mapLookup (mapInsert m k v) typ = mapLookup m typ := by
  simp only [mapInsert, mapLookup, if_neg h]
  exact mapLookup_eraseP m k typ h

theorem keys_eraseP_nodup {α : Type} {m : List (PermissionType × α)}
    (h : (m.map Prod.fst).Nodup) (p : PermissionType × α → Bool) :
    ((m.eraseP p).map Prod.fst).Nodup :=
  h.sublist ((List.eraseP_sublist m).map Prod.fst)

theorem not_mem_keys_eraseP {α : Type} {m : List (PermissionType × α)}
    (h : (m.map Prod.fst).Nodup) (k : PermissionType) :
    k ∉ (m.eraseP (fun p => p.1 == k)).map Prod.fst := by
  induction m with
  | nil => simp
  | cons hd tl ih =>
      obtain ⟨a, b⟩ := hd
      simp only [List.map_cons, List.nodup_cons] at h
      by_cases hak : a = k
      · rw [eraseP_cons_key_hit tl a k b hak]
        exact hak ▸ h.1
      · rw [eraseP_cons_key_miss tl a k b hak]
        simp only [List.map_cons, List.mem_cons]
        rintro (h1 | h2)
        · exact hak h1.symm
        · exact ih h.2 h2

theorem keys_nodup_mapInsert {α : Type} {m : List (PermissionType × α)}
    (h : (m.map Prod.fst).Nodup) (k : PermissionType) (v : α) :
    ((mapInsert m k v).map Prod.fst).Nodup := by
  simp only [mapInsert, List.map_cons, List.nodup_cons]
  exact ⟨not_mem_keys_eraseP h k, keys_eraseP_nodup h _⟩

theorem length_mapInsert_of_lookup_none {α : Type}
    {m : List (PermissionType × α)} {k : PermissionType}
    (hl : mapLookup m k = none) (v : α) :
    (mapInsert m k v).length = m.length + 1 := by
  rw [mapLookup_eq_none_iff] at hl
  have herase : m.eraseP (fun p => p.1 == k) = m := by
    apply List.eraseP_of_forall_not
    intro a ha
    simp only [beq_iff_eq]
    intro hak
    exact hl (hak ▸ List.mem_map_of_mem Prod.fst ha)
  simp [mapInsert, herase]

theorem length_mapInsert_of_lookup_some {α : Type}
    {m : List (PermissionType × α)} {k : PermissionType} {v0 : α}
    (hl : mapLookup m k = some v0) (v : α) :
    (mapInsert m k v).length = m.length := by
  have hmem : (k, v0) ∈ m := mem_of_mapLookup_eq_some hl
  have hlen : (m.eraseP (fun p => p.1 == k)).length + 1 = m.length :=
    List.length_eraseP_add_one hmem (by simp)
  simp only [mapInsert, List.length_cons]
  omega

theorem mapLookup_request_permissions_aux (envs : Nat → Platform)
    (joined : Nat → Bool) (types : List PermissionType) :
    ∀ (i : Nat) (acc : ResultMap) (typ : PermissionType),
      mapLookup (request_permissions_aux envs joined i types acc) typ =
        firstSome (lastJoined envs joined i types typ) (mapLookup acc typ) := by
  induction types with
  | nil => intro i acc typ; rfl
  | cons t ts ih =>
      intro i acc typ
      simp only [request_permissions_aux, lastJoined]
      rw [ih]
      cases hlj : lastJoined envs joined (i + 1) ts typ with
      | some r => simp [firstSome]
      | none =>
          simp only [firstSome]
          by_cases hj : joined i = true
          · simp only [hj, if_true]
            by_cases ht : t = typ
            · subst ht
              simp [mapLookup_mapInsert_self, hj]
            · rw [mapLookup_mapInsert_ne _ _ _ _ ht]
              simp [ht]
          · simp [hj]

theorem mapLookup_request_permissions (envs : Nat → Platform)
    (joined : Nat → Bool) (types : List PermissionType)
    (typ : PermissionType) :
    mapLookup (request_permissions envs joined types) typ =
      lastJoined envs joined 0 types typ := by
  rw [request_permissions, mapLookup_request_permissions_aux]
  cases lastJoined envs joined 0 types typ <;> simp [firstSome, mapLookup]

theorem keys_nodup_request_permissions_aux (envs : Nat → Platform)
    (joined : Nat → Bool) :
    ∀ (types : List PermissionType) (i : Nat) (acc : ResultMap),
      (acc.map Prod.fst).Nodup →
      ((request_permissions_aux envs joined i types acc).map Prod.fst).Nodup := by
  intro types
  induction types with
  | nil => intro i acc h; exact h
  | cons t ts ih =>
      intro i acc h
      simp only [request_permissions_aux]
      apply ih
      by_cases hj : joined i = true
      · simp only [hj, if_true]
        exact keys_nodup_mapInsert h t _
      · simpa [hj] using h

theorem lastJoined_eq_none_of_not_mem (envs : Nat → Platform)
    (joined : Nat → Bool) :
    ∀ (types : List PermissionType) (i : Nat) (typ : PermissionType),
      typ ∉ types → lastJoined envs joined i types typ = none := by
  intro types
  induction types with
  | nil => intro i typ _; rfl
  | cons t ts ih =>
      intro i typ h
      simp only [List.mem_cons, not_or] at h
      simp only [lastJoined]
      rw [ih (i + 1) typ h.2]
      have hne : ¬(t = typ ∧ joined i = true) := by
        rintro ⟨h1, _⟩
        exact h.1 h1.symm
      simp [hne]

theorem lastJoined_of_nodup (envs : Nat → Platform) (joined : Nat → Bool) :
    ∀ (types : List PermissionType), types.Nodup →
      ∀ (k i : Nat) (typ : PermissionType), types[i]? = some typ →
        lastJoined envs joined k types typ =
          if joined (k + i) = true then
            some (requestResultOf (envs (k + i)) typ)
          else none := by
  intro types
  induction types with
  | nil => intro _ k i typ h; simp at h
  | cons t ts ih =>
      intro hnd k i typ hget
      simp only [List.nodup_cons] at hnd
      cases i with
      | zero =>
          rw [List.getElem?_cons_zero, Option.some.injEq] at hget
          subst hget
          simp only [lastJoined]
          rw [lastJoined_eq_none_of_not_mem envs joined ts (k + 1) t hnd.1]
          by_cases hj : joined k = true
          · simp [hj]
          · simp [hj]
      | succ n =>
          rw [List.getElem?_cons_succ] at hget
          have htyp : typ ∈ ts := List.getElem?_mem hget
          have hne : ¬(t = typ ∧ joined k = true) := by
            rintro ⟨h1, _⟩
            exact hnd.1 (h1 ▸ htyp)
          have harith : k + 1 + n = k + (n + 1) := by omega
          simp only [lastJoined]
          rw [ih hnd.2 (k + 1) n typ hget, harith]
          by_cases hj : joined (k + (n + 1)) = true
          · simp [hj]
          · simp [hj, hne]

theorem lastJoined_ne_none_iff (envs : Nat → Platform) (joined : Nat → Bool) :
    ∀ (types : List PermissionType) (i : Nat) (typ : PermissionType),
      ¬lastJoined envs joined i types typ = none ↔
        typ ∈ (joinedEntries envs joined i types).map Prod.fst := by
  intro types
  induction types with
  | nil => intro i typ; simp [lastJoined, joinedEntries]
  | cons t ts ih =>
      intro i typ
      simp only [lastJoined, joinedEntries]
      cases hlj : lastJoined envs joined (i + 1) ts typ with
      | some r =>
          have hmem : typ ∈ (joinedEntries envs joined (i + 1) ts).map Prod.fst :=
            (ih (i + 1) typ).mp (by simp [hlj])
          by_cases hj : joined i = true <;> simp [hj, hmem]
      | none =>
          have hnmem : ¬typ ∈ (joinedEntries envs joined (i + 1) ts).map Prod.fst :=
            fun hc => by simpa [hlj] using (ih (i + 1) typ).mpr hc
          by_cases hj : joined i = true
          · by_cases ht : t = typ
            · simp [hj, ht, hnmem]
            · have : ¬(t = typ ∧ joined i = true) := by
                rintro ⟨h1, _⟩
                exact ht h1
              simp [hj, this, hnmem]
              exact eq_comm
          · simp [hj, hnmem]

theorem length_request_permissions (envs : Nat → Platform)
    (joined : Nat → Bool) (types : List PermissionType) :
    (request_permissions envs joined types).length =
      ((joinedEntries envs joined 0 types).map Prod.fst).dedup.length := by
  have hndk : ((request_permissions envs joined types).map Prod.fst).Nodup :=
    keys_nodup_request_permissions_aux envs joined types 0 [] (by simp)
  have hperm : List.Perm ((request_permissions envs joined types).map Prod.fst)
      (((joinedEntries envs joined 0 types).map Prod.fst).dedup) := by
    rw [List.perm_ext_iff_of_nodup hndk (List.nodup_dedup _)]
    intro a
    rw [List.mem_dedup]
    rw [← lastJoined_ne_none_iff envs joined types 0 a]
    rw [← mapLookup_request_permissions envs joined types a]
    constructor
    · intro ha hc
      rw [mapLookup_eq_none_iff] at hc
      exact hc ha
    · intro ha
      by_contra hc
      exact ha ((mapLookup_eq_none_iff _ _).mpr hc)
  have hlm : ((request_permissions envs joined types).map Prod.fst).length =
      (request_permissions envs joined types).length :=
    List.length_map _ _
  rw [← hlm, hperm.length_eq]

theorem check_cached (p : Platform) (cache : Cache) (typ : PermissionType)
    (s : PermissionStatus) (h : mapLookup cache typ = some s) :
    check_permission p cache typ = ⟨.ok s, cache, []⟩ := by
  simp [check_permission, h]

theorem check_after_check_ok (p : Platform) (cache : Cache)
    (typ : PermissionType) (s : PermissionStatus)
    (h : (check_permission p cache typ).result = .ok s) :
    check_permission p (check_permission p cache typ).cache typ =
      ⟨.ok s, (check_permission p cache typ).cache, []⟩ := by
  cases hcl : mapLookup cache typ with
  | some st =>
      have hs : st = s := by
        simp [check_permission, hcl] at h
        exact h
      subst hs
      simp [check_permission, hcl]
  | none =>
      cases hca : p.checkAdapter typ with
      | ok st =>
          have hs : st = s := by
            simp [check_permission, hcl, hca] at h
            exact h
          subst hs
          simp [check_permission, hcl, hca, mapLookup_mapInsert_self]
      | error e =>
          simp [check_permission, hcl, hca] at h

theorem check_after_request_ok (p : Platform) (cache : Cache)
    (typ : PermissionType) (s : PermissionStatus)
    (hch : requestPathOf typ = .channel)
    (h : (request_permission p cache typ).result = .ok s) :
    check_permission p (request_permission p cache typ).cache typ =
      ⟨.ok s, (request_permission p cache typ).cache, []⟩ := by
  cases hco : p.requestChannel typ with
  | dropped =>
      simp [request_permission, hch, hco] at h
  | sent r =>
      cases r with
      | ok st =>
          have hs : st = s := by
            simp [request_permission, hch, hco] at h
            exact h
          subst hs
          simp [request_permission, hch, hco, check_permission,
            mapLookup_mapInsert_self]
      | error e =>
          simp [request_permission, hch, hco] at h

/-- Platform for the C1 counterexample: WiFi's synchronous status check
returns Authorized while the platform check adapter reports Denied. -/
def c1Platform : Platform where
  checkAdapter := fun _ => .ok .Denied
  requestChannel := fun _ => .sent (.ok .Authorized)
  wifiCheck := .ok .Authorized
  tccRequest := fun _ => .ok .Authorized

/-- Claim C1, counterexample: for kind WiFi (whose request short-circuits
synchronously), `request_permission` succeeds with Authorized but does not
populate the cache, so the immediately following `check_permission`
invokes the platform check adapter (one `checkCall` in its trace) and can
even return a different status — the claim as stated is false. -/
theorem c1_cache_coherence_counterexample :
    (request_permission c1Platform [] .WiFi).result = .ok .Authorized ∧
    check_permission c1Platform
        (request_permission c1Platform [] .WiFi).cache .WiFi
      = ⟨.ok .Denied, [(.WiFi, .Denied)], [.checkCall .WiFi]⟩ :=
  ⟨by decide, by decide⟩

/-- Claim C1 (amended): if the cache holds status `s` for a kind,
`check_permission` returns `Ok s` with no native call; after a successful
`check_permission` returning `s`, an immediately following
`check_permission` returns `Ok s` with no native call; and after a
successful `request_permission` returning `s` for a kind dispatched
through the one-shot channel, an immediately following `check_permission`
returns `Ok s` with no native call. (Kinds whose request short-circuits
synchronously — WiFi and the TCC fall-through — do not populate the
cache, which is what the counterexample exhibits.) -/
theorem c1_cache_coherence (p : Platform) (cache : Cache)
    (typ : PermissionType) :
    (∀ s, mapLookup cache typ = some s →
        check_permission p cache typ = ⟨.ok s, cache, []⟩) ∧
    (∀ s, (check_permission p cache typ).result = .ok s →
        check_permission p (check_permission p cache typ).cache typ =
          ⟨.ok s, (check_permission p cache typ).cache, []⟩) ∧
    (requestPathOf typ = .channel →
      ∀ s, (request_permission p cache typ).result = .ok s →
        check_permission p (request_permission p cache typ).cache typ =
          ⟨.ok s, (request_permission p cache typ).cache, []⟩) :=
  ⟨fun s h => check_cached p cache typ s h,
   fun s h => check_after_check_ok p cache typ s h,
   fun hch s h => check_after_request_ok p cache typ s hch h⟩

/-- Platform for the C1 witness: every adapter authorizes. -/
def c1WitnessPlatform : Platform where
  checkAdapter := fun _ => .ok .Authorized
  requestChannel := fun _ => .sent (.ok .Authorized)
  wifiCheck := .ok .Authorized
  tccRequest := fun _ => .ok .Authorized

/-- Claim C1, witness: the amended coherence theorem applied to concrete
inputs — a cached Camera entry is returned with no native call, a
successful Camera check makes the following check call-free, and a
successful channel-mediated Location request makes the following check
call-free. -/
theorem c1_cache_coherence_witness :
    check_permission c1WitnessPlatform [(.Camera, .Denied)] .Camera
      = ⟨.ok .Denied, [(.Camera, .Denied)], []⟩ ∧
    check_permission c1WitnessPlatform
        (check_permission c1WitnessPlatform [] .Camera).cache .Camera
      = ⟨.ok .Authorized,
          (check_permission c1WitnessPlatform [] .Camera).cache, []⟩ ∧
    check_permission c1WitnessPlatform
        (request_permission c1WitnessPlatform [] .Location).cache .Location
      = ⟨.ok .Authorized,
          (request_permission c1WitnessPlatform [] .Location).cache, []⟩ :=
  ⟨(c1_cache_coherence c1WitnessPlatform [(.Camera, .Denied)] .Camera).1
      .Denied (by decide),
   (c1_cache_coherence c1WitnessPlatform [] .Camera).2.1
      .Authorized (by decide),
   (c1_cache_coherence c1WitnessPlatform [] .Location).2.2
      (by decide) .Authorized (by decide)⟩

/-- Platform for the C2 failing input: the check adapter now reports
Denied for Camera while the cache still holds Authorized. -/
def c2Platform : Platform where
  checkAdapter := fun _ => .ok .Denied
  requestChannel := fun _ => .sent (.ok .Authorized)
  wifiCheck := .ok .Authorized
  tccRequest := fun _ => .ok .Authorized

/-- Claim C2, code bug: `refresh_cache` delegates to `check_permission`,
whose cache-hit path returns immediately with no native call, so with
`(Camera, Authorized)` cached and a check adapter now reporting Denied,
`refresh_cache(Camera)` performs no adapter call and leaves the stale
Authorized entry in place — it never forces a fresh check when there is
a cached value to refresh, contradicting its own name and doc comment
("Manually refresh the cache"). -/
theorem c2_refresh_cache_skips_adapter_when_cached :
    refresh_cache c2Platform [(.Camera, .Authorized)] .Camera
      = ([(.Camera, .Authorized)], []) := by decide

/-- Claim C3: for a kind dispatched through the one-shot channel, if the
channel delivers `Err e` then `request_permission` returns exactly
`Err e` and the cache is untouched; if the producer is dropped without
sending, `request_permission` returns
`Err (SystemError "Permission channel closed")` and the cache is
untouched. (The model is total, so the call resolves rather than
hanging.) -/
theorem c3_request_error_semantics (p : Platform) (cache : Cache)
    (typ : PermissionType) (hch : requestPathOf typ = .channel) :
    (∀ e, p.requestChannel typ = .sent (.error e) →
        request_permission p cache typ =
          ⟨.error e, cache, [.requestCall typ]⟩) ∧
    (p.requestChannel typ = .dropped →
        request_permission p cache typ =
          ⟨.error (.SystemError "Permission channel closed"), cache,
            [.requestCall typ]⟩) := by
  constructor
  · intro e h
    simp [request_permission, hch, h]
  · intro h
    simp [request_permission, hch, h]

/-- Platform for the C3 witness: the Location request adapter sends
`Err Denied`; every other channel adapter drops the producer. -/
def c3Platform : Platform where
  checkAdapter := fun _ => .ok .Authorized
  requestChannel := fun t =>
    if t = .Location then .sent (.error .Denied) else .dropped
  wifiCheck := .ok .Authorized
  tccRequest := fun _ => .ok .Authorized

/-- Claim C3, witness: `request(Location)` with an adapter sending
`Err Denied` returns `Err Denied` with the cache unpopulated, and a
Camera request whose producer is dropped resolves to the channel-closed
`SystemError`. -/
theorem c3_request_error_semantics_witness :
    request_permission c3Platform [] .Location
      = ⟨.error .Denied, [], [.requestCall .Location]⟩ ∧
    request_permission c3Platform [] .Camera
      = ⟨.error (.SystemError "Permission channel closed"), [],
          [.requestCall .Camera]⟩ :=
  ⟨(c3_request_error_semantics c3Platform [] .Location (by decide)).1
      .Denied (by decide),
   (c3_request_error_semantics c3Platform [] .Camera (by decide)).2
      (by decide)⟩

/-- Claim C4: on a cache miss, a failing platform check adapter's error
is returned verbatim (same constructor, same detail) with exactly one
adapter invocation and the cache left unchanged. -/
theorem c4_check_error_atomicity (p : Platform) (cache : Cache)
    (typ : PermissionType) (e : PermissionError)
    (hmiss : mapLookup cache typ = none)
    (herr : p.checkAdapter typ = .error e) :
    check_permission p cache typ = ⟨.error e, cache, [.checkCall typ]⟩ := by
  simp [check_permission, hmiss, herr]

/-- Platform for the C4 witness: the check adapter always fails with a
platform error. -/
def c4Platform : Platform where
  checkAdapter := fun _ => .error (.PlatformError "native failure")
  requestChannel := fun _ => .dropped
  wifiCheck := .ok .Authorized
  tccRequest := fun _ => .ok .Authorized

/-- Claim C4, witness: a Camera check against an empty cache with a
failing adapter returns the adapter's error unchanged and leaves the
cache empty. -/
theorem c4_check_error_atomicity_witness :
    check_permission c4Platform [] .Camera
      = ⟨.error (.PlatformError "native failure"), [],
          [.checkCall .Camera]⟩ :=
  c4_check_error_atomicity c4Platform [] .Camera
    (.PlatformError "native failure") (by decide) (by decide)

/-- Claim C5: for a duplicate-free list of kinds, the mapping returned by
`request_permissions` is keyed by exactly the kinds whose task joined
successfully: the i-th kind maps to its own task's request result when
task i joined, is absent when task i failed to join (silent omission,
one kind's join failure affecting no other kind's entry), and no kind
outside the input list appears — all independent of completion order,
since the join loop keys the mapping by kind. -/
theorem c5_batch_completeness (envs : Nat → Platform) (joined : Nat → Bool)
    (types : List PermissionType) (hnd : types.Nodup) :
    (∀ (i : Nat) (typ : PermissionType), types[i]? = some typ →
        mapLookup (request_permissions envs joined types) typ =
          if joined i = true then some (requestResultOf (envs i) typ)
          else none) ∧
    (∀ typ, typ ∉ types →
        mapLookup (request_permissions envs joined types) typ = none) := by
  constructor
  · intro i typ hget
    rw [mapLookup_request_permissions]
    have hlast := lastJoined_of_nodup envs joined types hnd 0 i typ hget
    simpa using hlast
  · intro typ h
    rw [mapLookup_request_permissions]
    exact lastJoined_eq_none_of_not_mem envs joined types 0 typ h

/-- Platform for the C5 witness: three channel kinds resolving to three
different statuses. -/
def c5Platform : Platform where
  checkAdapter := fun _ => .ok .Authorized
  requestChannel := fun t =>
    if t = .Camera then .sent (.ok .Authorized)
    else if t = .Location then .sent (.ok .Denied)
    else .sent (.ok .NotDetermined)
  wifiCheck := .ok .Authorized
  tccRequest := fun _ => .ok .Authorized

/-- Claim C5, witness: a batch over [Camera, Location, Contacts] with all
three tasks joining yields exactly those three keys, each with its own
result, and no entry for a kind outside the batch. -/
theorem c5_batch_completeness_witness :
    mapLookup (request_permissions (fun _ => c5Platform) (fun _ => true)
        [.Camera, .Location, .Contacts]) .Camera = some (.ok .Authorized) ∧
    mapLookup (request_permissions (fun _ => c5Platform) (fun _ => true)
        [.Camera, .Location, .Contacts]) .Location = some (.ok .Denied) ∧
    mapLookup (request_permissions (fun _ => c5Platform) (fun _ => true)
        [.Camera, .Location, .Contacts]) .Contacts
      = some (.ok .NotDetermined) ∧
    mapLookup (request_permissions (fun _ => c5Platform) (fun _ => true)
        [.Camera, .Location, .Contacts]) .Photos = none :=
  ⟨(c5_batch_completeness (fun _ => c5Platform) (fun _ => true)
      [.Camera, .Location, .Contacts] (by decide)).1 0 .Camera (by decide),
   (c5_batch_completeness (fun _ => c5Platform) (fun _ => true)
      [.Camera, .Location, .Contacts] (by decide)).1 1 .Location (by decide),
   (c5_batch_completeness (fun _ => c5Platform) (fun _ => true)
      [.Camera, .Location, .Contacts] (by decide)).1 2 .Contacts (by decide),
   (c5_batch_completeness (fun _ => c5Platform) (fun _ => true)
      [.Camera, .Location, .Contacts] (by decide)).2 .Photos (by decide)⟩

/-- Claim C6: `clear_cache` empties the entire cache in one operation:
afterwards no kind has an entry, and the next `check_permission` for any
kind misses the cache and invokes the platform check adapter (exactly
one `checkCall` in its trace). -/
theorem c6_clear_cache (p : Platform) (cache : Cache) (typ : PermissionType) :
    clear_cache cache = [] ∧
    mapLookup (clear_cache cache) typ = none ∧
    (check_permission p (clear_cache cache) typ).calls = [.checkCall typ] := by
  refine ⟨rfl, rfl, ?_⟩
  cases hca : p.checkAdapter typ <;>
    simp [clear_cache, check_permission, mapLookup, hca]

theorem ManagerWorld.caches_update_self (w : ManagerWorld) (i : Nat)
    (c : Cache) : (w.update i c).caches i = c := by
  simp [ManagerWorld.update]

theorem ManagerWorld.update_update_self (w : ManagerWorld) (i : Nat)
    (c : Cache) : (w.update i c).update i c = w.update i c := by
  simp only [ManagerWorld.update]
  congr 1
  funext j
  by_cases h : j = i <;> simp [h]

theorem worldCheck_eq (p : Platform) (w : ManagerWorld)
    (m : PermissionManager) (typ : PermissionType) :
    worldCheck p w m typ =
      ((check_permission p (w.caches m.cacheId) typ).result,
       w.update m.cacheId (check_permission p (w.caches m.cacheId) typ).cache,
       (check_permission p (w.caches m.cacheId) typ).calls) := rfl

theorem worldRequest_eq (p : Platform) (w : ManagerWorld)
    (m : PermissionManager) (typ : PermissionType) :
    worldRequest p w m typ =
      ((request_permission p (w.caches m.cacheId) typ).result,
       w.update m.cacheId
         (request_permission p (w.caches m.cacheId) typ).cache,
       (request_permission p (w.caches m.cacheId) typ).calls) := rfl

/-- Platform for the C7 counterexample. -/
def c7Platform : Platform where
  checkAdapter := fun _ => .ok .Denied
  requestChannel := fun _ => .sent (.ok .Authorized)
  wifiCheck := .ok .Authorized
  tccRequest := fun _ => .ok .Authorized

/-- World with one empty cache cell, for the C7 counterexample. -/
def c7World : ManagerWorld := ⟨fun _ => []⟩

/-- A manager handle over cell 0, for the C7 counterexample. -/
def c7Manager : PermissionManager := ⟨0⟩

/-- Claim C7, counterexample: a successful WiFi `request_permission`
through one handle does not make any status visible to its clone — the
request short-circuits synchronously without writing the shared cache,
so the clone's subsequent check still invokes the platform adapter. The
"every operation makes the cached status visible to all clones" clause
of the claim is therefore false as stated. -/
theorem c7_clone_sharing_counterexample :
    (worldRequest c7Platform c7World c7Manager .WiFi).1 = .ok .Authorized ∧
    (worldCheck c7Platform
        (worldRequest c7Platform c7World c7Manager .WiFi).2.1
        c7Manager.clone .WiFi).2.2 = [.checkCall .WiFi] :=
  ⟨by decide, by decide⟩

/-- Claim C7 (amended): cloning a manager yields a handle referring to
the same cache cell, and a successful `check_permission` — or a
successful channel-mediated `request_permission` — through the original
handle writes the shared cache so that the clone's immediately following
check of that kind returns the same status with no native call. (The
original claim's "or request" clause fails for synchronously
short-circuited kinds, as the counterexample shows.) -/
theorem c7_clone_shared_cache (p : Platform) (w : ManagerWorld)
    (m1 m2 : PermissionManager) (typ : PermissionType)
    (hclone : m2 = m1.clone) :
    m2.cacheId = m1.cacheId ∧
    (∀ s, (worldCheck p w m1 typ).1 = .ok s →
        worldCheck p (worldCheck p w m1 typ).2.1 m2 typ =
          (.ok s, (worldCheck p w m1 typ).2.1, [])) ∧
    (requestPathOf typ = .channel →
      ∀ s, (worldRequest p w m1 typ).1 = .ok s →
        worldCheck p (worldRequest p w m1 typ).2.1 m2 typ =
          (.ok s, (worldRequest p w m1 typ).2.1, [])) := by
  subst hclone
  refine ⟨rfl, ?_, ?_⟩
  · intro s h
    rw [worldCheck_eq] at h
    simp only at h
    rw [worldCheck_eq, worldCheck_eq]
    simp only [PermissionManager.clone, ManagerWorld.caches_update_self]
    rw [check_after_check_ok p (w.caches m1.cacheId) typ s h]
    simp [ManagerWorld.update_update_self]
  · intro hch s h
    rw [worldRequest_eq] at h
    simp only at h
    rw [worldCheck_eq, worldRequest_eq]
    simp only [PermissionManager.clone, ManagerWorld.caches_update_self]
    rw [check_after_request_ok p (w.caches m1.cacheId) typ s hch h]
    simp [ManagerWorld.update_update_self]

/-- Platform for the C7 witness. -/
def c7WitnessPlatform : Platform where
  checkAdapter := fun _ => .ok .Authorized
  requestChannel := fun _ => .sent (.ok .Denied)
  wifiCheck := .ok .Authorized
  tccRequest := fun _ => .ok .Authorized

/-- Claim C7, witness: the amended sharing theorem at concrete inputs —
a successful Camera check through handle 0 makes the clone's following
Camera check call-free, and likewise after a successful channel-mediated
Location request. -/
theorem c7_clone_shared_cache_witness :
    worldCheck c7WitnessPlatform
        (worldCheck c7WitnessPlatform c7World c7Manager .Camera).2.1
        c7Manager.clone .Camera =
      (.ok .Authorized,
       (worldCheck c7WitnessPlatform c7World c7Manager .Camera).2.1, []) ∧
    worldCheck c7WitnessPlatform
        (worldRequest c7WitnessPlatform c7World c7Manager .Location).2.1
        c7Manager.clone .Location =
      (.ok .Denied,
       (worldRequest c7WitnessPlatform c7World c7Manager .Location).2.1,
       []) :=
  ⟨(c7_clone_shared_cache c7WitnessPlatform c7World c7Manager
      c7Manager.clone .Camera rfl).2.1 .Authorized (by decide),
   (c7_clone_shared_cache c7WitnessPlatform c7World c7Manager
      c7Manager.clone .Location rfl).2.2 (by decide) .Denied (by decide)⟩

/-- Claim C8: the macOS notification request adapter's cancellation
pattern. (a) When the token is already cancelled at entry, exactly one
value — `Err Cancelled` — is sent into the producer before the function
returns (delivered when the receiver is still alive). (b) When
cancellation is observed inside the native callback, the sender is
dropped without sending (no new send attempt, the slot emptied), the
guard flag is set, and any later callback invocation leaves the state
untouched. (c) A send whose receiver was already dropped fails silently,
leaving the channel unchanged — the adapter discards the failure rather
than panicking — and a callback running against a dropped receiver never
delivers a value. -/
theorem c8_notification_cancellation (ch : OneShotChan)
    (st : NotifRequestState) (cancelNow granted : Bool)
    (errDesc : Option String) :
    ((notifRequestInit true ch).sendAttempts = [.error .Cancelled] ∧
     (ch.receiverAlive = true → ch.delivered = none →
        (notifRequestInit true ch).chan.delivered =
          some (.error .Cancelled))) ∧
    (st.cancelFlag = false → st.senderHeld = true →
        notifCallback st true granted errDesc =
          { st with senderHeld := false, cancelFlag := true } ∧
        (∀ (c2 g2 : Bool) (e2 : Option String),
          notifCallback
              { st with senderHeld := false, cancelFlag := true } c2 g2 e2 =
            { st with senderHeld := false, cancelFlag := true })) ∧
    (ch.receiverAlive = false → ∀ v, chanSend ch v = (ch, false)) ∧
    (st.chan.receiverAlive = false →
        (notifCallback st cancelNow granted errDesc).chan.delivered =
          st.chan.delivered) := by
  refine ⟨⟨?_, ?_⟩, ?_, ?_, ?_⟩
  · simp [notifRequestInit]
  · intro h1 h2
    simp [notifRequestInit, chanSend, h1, h2]
  · intro hflag hheld
    constructor
    · simp [notifCallback, hflag, hheld]
    · intro c2 g2 e2
      simp [notifCallback]
  · intro h v
    simp [chanSend, h]
  · intro h
    by_cases hflag : st.cancelFlag = true
    · simp [notifCallback, hflag]
    · by_cases hheld : st.senderHeld = true
      · by_cases hc : cancelNow = true
        · simp [notifCallback, hflag, hheld, hc]
        · simp [notifCallback, hflag, hheld, hc, chanSend, h]
      · simp [notifCallback, hflag, hheld]

/-- A live one-shot channel for the C8 witness. -/
def c8ChanAlive : OneShotChan := { delivered := none, receiverAlive := true }

/-- A one-shot channel whose receiver was dropped, for the C8 witness. -/
def c8ChanDead : OneShotChan := { delivered := none, receiverAlive := false }

/-- Claim C8, witness: the cancellation theorem at concrete inputs — the
already-cancelled fast path attempts exactly one `Err Cancelled` send
and delivers it on a live channel; a callback that observes cancellation
drops the sender and sets the guard without sending; and a send on a
dropped-receiver channel fails silently with the channel unchanged. -/
theorem c8_notification_cancellation_witness :
    (notifRequestInit true c8ChanAlive).sendAttempts = [.error .Cancelled] ∧
    (notifRequestInit true c8ChanAlive).chan.delivered =
      some (.error .Cancelled) ∧
    notifCallback (notifRequestInit false c8ChanAlive) true true none =
      { chan := c8ChanAlive, senderHeld := false, cancelFlag := true,
        sendAttempts := [] } ∧
    chanSend c8ChanDead (.ok .Authorized) = (c8ChanDead, false) :=
  ⟨(c8_notification_cancellation c8ChanAlive
      (notifRequestInit false c8ChanAlive) true true none).1.1,
   (c8_notification_cancellation c8ChanAlive
      (notifRequestInit false c8ChanAlive) true true none).1.2 rfl rfl,
   ((c8_notification_cancellation c8ChanAlive
      (notifRequestInit false c8ChanAlive) true true none).2.1
      (by decide) (by decide)).1,
   (c8_notification_cancellation c8ChanDead
      (notifRequestInit false c8ChanDead) true true none).2.2.1 rfl
      (.ok .Authorized)⟩

/-- Claim C9: with duplicate kinds in the input, the mapping returned by
`request_permissions` still has pairwise-distinct keys, its size equals
the number of distinct kinds among the successfully joined tasks (not
the input length), and each key's value is the result of the last joined
task for that kind (later joins overwrite earlier ones). -/
theorem c9_batch_duplicates (envs : Nat → Platform) (joined : Nat → Bool)
    (types : List PermissionType) :
    ((request_permissions envs joined types).map Prod.fst).Nodup ∧
    (request_permissions envs joined types).length =
      ((joinedEntries envs joined 0 types).map Prod.fst).dedup.length ∧
    (∀ typ, mapLookup (request_permissions envs joined types) typ =
        lastJoined envs joined 0 types typ) :=
  ⟨keys_nodup_request_permissions_aux envs joined types 0 [] (by simp),
   length_request_permissions envs joined types,
   mapLookup_request_permissions envs joined types⟩

/-- Claim C10: `request_permission` never consults the cache before
dispatching — its returned result and its native-call trace are
identical for any two cache states, and every call performs exactly one
dispatch: the channel-mediated request adapter, the synchronous WiFi
status check, or the synchronous TCC request. Only `check_permission`'s
behavior depends on the cache. -/
theorem c10_request_ignores_cache (p : Platform) (ca cb : Cache)
    (typ : PermissionType) :
    (request_permission p ca typ).result =
      (request_permission p cb typ).result ∧
    (request_permission p ca typ).calls =
      (request_permission p cb typ).calls ∧
    ((request_permission p ca typ).calls = [.requestCall typ] ∨
     (request_permission p ca typ).calls = [.wifiCheckCall] ∨
     (request_permission p ca typ).calls = [.tccRequestCall typ]) := by
  cases hrp : requestPathOf typ with
  | wifiSync => simp [request_permission, hrp]
  | tccSync => simp [request_permission, hrp]
  | channel =>
      cases hco : p.requestChannel typ with
      | dropped => simp [request_permission, hrp, hco]
      | sent r => cases r <;> simp [request_permission, hrp, hco]
